import Mathlib

set_option maxRecDepth 8192

namespace CityBot

/-! Shallow embedding of the CityBattle telegram bot core (bot.py and
database.py).  Python dictionaries are modelled as association lists,
asyncio timeout tasks as an optional field recording which player the
pending clock would forfeit, and outbound side effects (chat messages,
database writes) as an explicit effect list returned by every handler.
Player identifiers are naturals; the string game id game_min_max from
make_game_id is modelled by the (isomorphic) canonical pair
(min a b, max a b). -/

/-- Lowercasing as Python str.lower acts on the alphabets this program
works with: ASCII letters and the Russian alphabet (А..Я maps to а..я,
Ё maps to ё).  Other characters are unchanged. -/
def ruLower (c : Char) : Char :=
  if 'A' ≤ c ∧ c ≤ 'Z' then Char.ofNat (c.toNat + 32)
  else if 'А' ≤ c ∧ c ≤ 'Я' then Char.ofNat (c.toNat + 32)
  else if c = 'Ё' then 'ё'
  else c

/-- Python ch.isalpha restricted to the alphabets this program works
with: ASCII and Russian letters. -/
def isAlphaRu (c : Char) : Bool :=
  decide (('a' ≤ c ∧ c ≤ 'z') ∨ ('A' ≤ c ∧ c ≤ 'Z') ∨
    ('а' ≤ c ∧ c ≤ 'я') ∨ ('А' ≤ c ∧ c ≤ 'Я') ∨ c = 'ё' ∨ c = 'Ё')

/-- The letter-variant mapping replace of bot.py: ё becomes е. -/
def yoToE (c : Char) : Char :=
  if c = 'ё' then 'е' else c

/-- Python s.split() on a character list: splits on whitespace runs,
dropping empty pieces.  The accumulator holds the current word reversed. -/
def splitWsAux : List Char → List Char → List (List Char)
  | [], acc => if acc = [] then [] else [acc.reverse]
  | c :: rest, acc =>
    if c.isWhitespace then
      if acc = [] then splitWsAux rest [] else acc.reverse :: splitWsAux rest []
    else splitWsAux rest (c :: acc)

/-- Python sep.join for a single-space separator. -/
def joinSpace : List (List Char) → List Char
  | [] => []
  | [w] => w
  | w :: ws => w ++ ' ' :: joinSpace ws

/-- normalize_city from bot.py: strip, lower, collapse whitespace runs
to single spaces, replace ё with е.  The per-character lower and the
ё-replacement are applied after splitting and joining; this is
equivalent to the source order because lowering fixes whitespace and
never produces it, and python strip is subsumed by split dropping empty
pieces. -/
def normalize_city (s : String) : String :=
  String.mk ((joinSpace (splitWsAux s.data [])).map (fun c => yoToE (ruLower c)))

/-- SKIP_LAST from bot.py: letters never used as the required last
letter. -/
def SKIP_LAST : List Char := ['ь', 'ъ', 'ы', 'й']

/-- The loop body of last_significant_letter, over the reversed
character list of the normalized word. -/
def lastSigAux : List Char → Option Char
  | [] => none
  | c :: rest =>
    if isAlphaRu c then
      let cn := yoToE c
      if cn ∈ SKIP_LAST then lastSigAux rest else some cn
    else lastSigAux rest

/-- last_significant_letter from bot.py: normalize, then scan from the
end for the first alphabetic character whose ё-mapped form is not in
SKIP_LAST. -/
def last_significant_letter (w : String) : Option Char :=
  lastSigAux (normalize_city w).data.reverse

/-- Modelled from the spec words for effectiveLastLetter: the first
character from the end of the normalized word that is alphabetic and,
after the letter-variant mapping, not in the non-terminal letter set;
used only to compare the source definition against the specification. -/
def effectiveLastLetterSpec (w : String) : Option Char :=
  ((normalize_city w).data.reverse).findSome? (fun c =>
    if isAlphaRu c ∧ yoToE c ∉ SKIP_LAST then some (yoToE c) else none)

example : last_significant_letter "Учалы" = some 'л' := by decide
example : last_significant_letter "" = none := by decide
example : last_significant_letter "Москва" = some 'а' := by decide
example : last_significant_letter "ьый" = none := by decide
example : normalize_city "  ЁлКа   Тест " = "елка тест" := by decide

/-! Association lists with decidable keys, modelling Python dicts.
Insertion removes any previous binding of the key, so key lists stay
duplicate free. -/

section AList

variable {α β : Type} [DecidableEq α]

def alookup : List (α × β) → α → Option β
  | [], _ => none
  | (k, v) :: rest, a => if k = a then some v else alookup rest a

def aerase : List (α × β) → α → List (α × β)
  | [], _ => []
  | (k, v) :: rest, a => if k = a then aerase rest a else (k, v) :: aerase rest a

def ainsert (l : List (α × β)) (a : α) (b : β) : List (α × β) :=
  (a, b) :: aerase l a

theorem alookup_aerase_self (l : List (α × β)) (a : α) :
    alookup (aerase l a) a = none := by
  induction l with
  | nil => rfl
  | cons hd tl ih =>
    obtain ⟨k, v⟩ := hd
    by_cases h : k = a <;> simp [aerase, alookup, h, ih]

theorem alookup_aerase_ne (l : List (α × β)) (a b : α) (h : a ≠ b) :
    alookup (aerase l a) b = alookup l b := by
  induction l with
  | nil => rfl
  | cons hd tl ih =>
    obtain ⟨k, v⟩ := hd
    by_cases hk : k = a
    · subst hk
      simp [aerase, alookup, h, ih]
    · by_cases hb : k = b
      · subst hb
        simp [aerase, alookup, hk]
      · simp [aerase, alookup, hk, hb, ih]

theorem alookup_ainsert_self (l : List (α × β)) (a : α) (b : β) :
    alookup (ainsert l a b) a = some b := by
  simp [ainsert, alookup]

theorem alookup_ainsert_ne (l : List (α × β)) (a : α) (b : β) (c : α) (h : a ≠ c) :
    alookup (ainsert l a b) c = alookup l c := by
  simp [ainsert, alookup, h, alookup_aerase_ne l a c h]

theorem mem_aerase {l : List (α × β)} {a : α} {k : α} {v : β} :
    (k, v) ∈ aerase l a → (k, v) ∈ l ∧ k ≠ a := by
  induction l with
  | nil => intro h; cases h
  | cons hd tl ih =>
    obtain ⟨k0, v0⟩ := hd
    by_cases h : k0 = a
    · intro hm
      simp only [aerase, if_pos h] at hm
      exact ⟨List.mem_cons_of_mem _ (ih hm).1, (ih hm).2⟩
    · intro hm
      simp only [aerase, if_neg h] at hm
      rcases List.mem_cons.mp hm with heq | hm'
      · obtain ⟨h1, h2⟩ := Prod.mk.injEq .. ▸ congrArg id heq
        exact ⟨by simp [heq], by
          cases heq
          exact h⟩
      · exact ⟨List.mem_cons_of_mem _ (ih hm').1, (ih hm').2⟩

theorem mem_ainsert {l : List (α × β)} {a : α} {b : β} {k : α} {v : β} :
    (k, v) ∈ ainsert l a b → (k = a ∧ v = b) ∨ ((k, v) ∈ l ∧ k ≠ a) := by
  intro h
  rcases List.mem_cons.mp h with heq | hm
  · left
    cases heq
    exact ⟨rfl, rfl⟩
  · right
    exact mem_aerase hm

theorem keys_aerase_nodup {l : List (α × β)} (h : (l.map Prod.fst).Nodup) (a : α) :
    ((aerase l a).map Prod.fst).Nodup := by
  induction l with
  | nil => exact h
  | cons hd tl ih =>
    obtain ⟨k, v⟩ := hd
    simp only [List.map_cons, List.nodup_cons] at h
    by_cases hk : k = a
    · simpa [aerase, hk] using ih h.2
    · simp only [aerase, if_neg hk, List.map_cons, List.nodup_cons]
      refine ⟨fun hmem => h.1 ?_, ih h.2⟩
      rcases List.mem_map.mp hmem with ⟨⟨k', v'⟩, hm, hk'⟩
      exact List.mem_map.mpr ⟨(k', v'), (mem_aerase hm).1, hk'⟩

theorem not_mem_keys_aerase (l : List (α × β)) (a : α) :
    a ∉ (aerase l a).map Prod.fst := by
  intro hmem
  rcases List.mem_map.mp hmem with ⟨⟨k, v⟩, hm, hk⟩
  exact (mem_aerase hm).2 hk

theorem keys_ainsert_nodup {l : List (α × β)} (h : (l.map Prod.fst).Nodup) (a : α) (b : β) :
    ((ainsert l a b).map Prod.fst).Nodup := by
  simp only [ainsert, List.map_cons, List.nodup_cons]
  exact ⟨not_mem_keys_aerase l a, keys_aerase_nodup h a⟩

theorem alookup_eq_some_of_mem {l : List (α × β)} {k : α} {v : β}
    (hnd : (l.map Prod.fst).Nodup) (hm : (k, v) ∈ l) : alookup l k = some v := by
  induction l with
  | nil => cases hm
  | cons hd tl ih =>
    obtain ⟨k0, v0⟩ := hd
    simp only [List.map_cons, List.nodup_cons] at hnd
    rcases List.mem_cons.mp hm with heq | hm'
    · cases heq
      simp [alookup]
    · have hne : k0 ≠ k := by
        intro h
        subst h
        exact hnd.1 (List.mem_map.mpr ⟨(k0, v), hm', rfl⟩)
      simp [alookup, hne, ih hnd.2 hm']

theorem mem_of_alookup_eq_some {l : List (α × β)} {k : α} {v : β}
    (h : alookup l k = some v) : (k, v) ∈ l := by
  induction l with
  | nil => cases h
  | cons hd tl ih =>
    obtain ⟨k0, v0⟩ := hd
    by_cases hk : k0 = k
    · subst hk
      simp [alookup] at h
      subst h
      exact List.mem_cons_self _ _
    · simp only [alookup, if_neg hk] at h
      exact List.mem_cons_of_mem _ (ih h)

end AList

/-! database.py: the players table, one row per user id.  The two
UPDATE statements of record_win are the two sequential field updates
below; INSERT OR IGNORE is the getD defaultRow. -/

structure PlayerRow where
  username : String
  country : String
  wins : Nat
  current_streak : Nat
  max_streak : Nat
deriving DecidableEq

def defaultRow : PlayerRow :=
  { username := "Player", country := "", wins := 0, current_streak := 0, max_streak := 0 }

def record_win (db : List (Nat × PlayerRow)) (uid : Nat) : List (Nat × PlayerRow) :=
  let r := (alookup db uid).getD defaultRow
  let r1 : PlayerRow :=
    { r with wins := r.wins + 1, current_streak := r.current_streak + 1 }
  let r2 : PlayerRow :=
    if r1.current_streak > r1.max_streak then { r1 with max_streak := r1.current_streak } else r1
  ainsert db uid r2

def reset_streak (db : List (Nat × PlayerRow)) (uid : Nat) : List (Nat × PlayerRow) :=
  let r := (alookup db uid).getD defaultRow
  ainsert db uid { r with current_streak := 0 }

/-! bot.py data model.  started_at (a wall-clock datetime, used by no
logic) is omitted; timer_task is modelled by the player whom the
currently scheduled turn_timeout watches, or none when no clock is
pending. -/

structure Game where
  players : Nat × Nat
  turn : Nat
  last_letter : Option Char
  used_cities : List String
  timer : Option Nat
  moves : Nat
  last_move : Option (Nat × String)
deriving DecidableEq

structure BotState where
  games : List ((Nat × Nat) × Game)
  player_game : List (Nat × (Nat × Nat))
  waiting_player : Option Nat
  rematch_offers : List ((Nat × Nat) × List Nat)
  buttons : List (Nat × Nat)
deriving DecidableEq

def initState : BotState :=
  { games := [], player_game := [], waiting_player := none, rematch_offers := [], buttons := [] }

/-- Message payloads, keeping only the data the claims inspect. -/
inductive Msg
  | notYourTurn
  | invalidWord
  | unknownCity
  | alreadyUsed
  | wrongLetter (needed : Char)
  | accepted (city : String)
  | yourTurn (letter : Option Char)
  | queued
  | alreadyQueued
  | alreadyInGame
  | leftQueue
  | notInQueue
  | notInGame
  | gameMissing
  | gameStart
  | turnPrompt (letter : Option Char)
  | opponentMoved (mover : Nat) (city : String)
  | waitingFor (mover : Nat)
  | win
  | lose
  | draw
  | rematchOffer
  | rematchConsentAck
  | rematchAgreed
  | rematchWithdrawAck
  | rematchWithdrawn
  | rematchBusy
  | noOffers
  | offersCancelled
deriving DecidableEq

/-- Outbound side effects: chat sends and database calls. -/
inductive Eff
  | send (dest : Nat) (m : Msg)
  | upsert (p : Nat)
  | recordWin (p : Nat)
  | resetStreak (p : Nat)
deriving DecidableEq

def make_game_id (a b : Nat) : Nat × Nat :=
  (min a b, max a b)

def pair_key (a b : Nat) : Nat × Nat :=
  (min a b, max a b)

/-- The opponent computation pattern players[0] if players[1] == u else
players[1] used throughout bot.py. -/
def otherOf (players : Nat × Nat) (u : Nat) : Nat :=
  if players.2 = u then players.1 else players.2

def is_user_in_game (st : BotState) (u : Nat) : Bool :=
  decide (alookup st.player_game u ≠ none)

/-- start_turn from bot.py: notifies both players and schedules a
turn_timeout task for the player to move. -/
def start_turn (gid : Nat × Nat) (st : BotState) : BotState × List Eff :=
  match alookup st.games gid with
  | none => (st, [])
  | some g =>
    let mover := g.turn
    let opp := otherOf g.players mover
    let effs : List Eff :=
      [.send mover (.turnPrompt g.last_letter),
       match g.last_move with
       | some (m, c) => .send opp (.opponentMoved m c)
       | none => .send opp (.waitingFor mover)]
    ({ st with games := ainsert st.games gid { g with timer := some mover } }, effs)

/-- create_game_between from bot.py: no-op when the pair already has a
game; otherwise registers the game, points both reverse-index entries
at it, greets both players and starts the first turn. -/
def create_game_between (p1 p2 : Nat) (first_player : Option Nat) (st : BotState) :
    BotState × List Eff :=
  let gid := make_game_id p1 p2
  if alookup st.games gid ≠ none then (st, [])
  else
    let fp := first_player.getD p1
    let g : Game :=
      { players := (p1, p2), turn := fp, last_letter := none, used_cities := [],
        timer := none, moves := 0, last_move := none }
    let st1 : BotState :=
      { st with games := ainsert st.games gid g,
                player_game := ainsert (ainsert st.player_game p1 gid) p2 gid }
    let r := start_turn gid st1
    (r.1, [.send p1 .gameStart, .send p2 .gameStart] ++ r.2)

/-- end_game from bot.py: cancels the clock, notifies, records the win
and streak updates, removes the session and both reverse-index
entries, and offers a rematch (modelled by appending the pair of
callback buttons the bot sends, in players order). -/
def end_game (gid : Nat × Nat) (winner : Option Nat) (st : BotState) : BotState × List Eff :=
  match alookup st.games gid with
  | none => (st, [])
  | some g =>
    let p1 := g.players.1
    let p2 := g.players.2
    let effs : List Eff :=
      match winner with
      | none => [.send p1 .draw, .send p2 .draw, .resetStreak p1, .resetStreak p2]
      | some w =>
        let loser := if w = p2 then p1 else p2
        [.send w .win, .send loser .lose, .recordWin w, .resetStreak loser]
    let st1 : BotState :=
      { st with games := aerase st.games gid,
                player_game := aerase (aerase st.player_game p1) p2,
                buttons := st.buttons ++ [(p1, p2)] }
    (st1, effs ++ [.send p1 .rematchOffer, .send p2 .rematchOffer])

/-- The body of turn_timeout from bot.py after the countdown elapses:
forfeit the watched player only when the session still exists and it is
still their move. -/
def turn_timeout_fire (gid : Nat × Nat) (uid : Nat) (st : BotState) : BotState × List Eff :=
  match alookup st.games gid with
  | none => (st, [])
  | some g =>
    if g.turn = uid then end_game gid (some (otherOf g.players uid)) st
    else (st, [])

/-- cmd_play from bot.py. -/
def cmd_play (u : Nat) (st : BotState) : BotState × List Eff :=
  if is_user_in_game st u then (st, [.upsert u, .send u .alreadyInGame])
  else
    match st.waiting_player with
    | none => ({ st with waiting_player := some u }, [.upsert u, .send u .queued])
    | some w =>
      if w = u then (st, [.upsert u, .send u .alreadyQueued])
      else
        let r := create_game_between w u (some w) { st with waiting_player := none }
        (r.1, .upsert u :: r.2)

/-- cmd_leave from bot.py. -/
def cmd_leave (u : Nat) (st : BotState) : BotState × List Eff :=
  if st.waiting_player = some u then
    ({ st with waiting_player := none }, [.send u .leftQueue])
  else (st, [.send u .notInQueue])

/-- cmd_surrender from bot.py: the opponent wins. -/
def cmd_surrender (u : Nat) (st : BotState) : BotState × List Eff :=
  match alookup st.player_game u with
  | none => (st, [.send u .notInGame])
  | some gid =>
    match alookup st.games gid with
    | none => (st, [.send u .gameMissing])
    | some g => end_game gid (some (otherOf g.players u)) st

/-- cmd_cancel_rematch from bot.py: withdraw the user from every offer
set, drop emptied entries, and notify each counterpart. -/
def cmd_cancel_rematch (u : Nat) (st : BotState) : BotState × List Eff :=
  let affected := st.rematch_offers.filter (fun e => decide (u ∈ e.2))
  let offers2 := st.rematch_offers.filterMap (fun e =>
    if u ∈ e.2 then
      let rest := e.2.erase u
      if rest = [] then none else some (e.1, rest)
    else some e)
  if affected = [] then (st, [.send u .noOffers])
  else
    ({ st with rematch_offers := offers2 },
     .send u .offersCancelled ::
       affected.map (fun e => .send (if e.1.2 = u then e.1.1 else e.1.2) .rematchWithdrawn))

/-- The mutation block of an accepted move in handle_move: extend
used_cities, bump the move counter, store the new required letter and
the last move, cancel the pending clock and schedule one for the
opponent (net effect: timer watches the opponent), flip the turn. -/
def acceptUpdate (u : Nat) (text : String) (g : Game) : Game :=
  { g with used_cities := normalize_city text :: g.used_cities,
           moves := g.moves + 1,
           last_letter := last_significant_letter (normalize_city text),
           last_move := some (u, normalize_city text),
           timer := some (otherOf g.players u),
           turn := otherOf g.players u }

/-- handle_move from bot.py: the move validation chain and, on
success, the state update, clock cancellation and rescheduling.  The
python code strips the raw text before normalizing; normalize_city
strips anyway, so the model normalizes directly. -/
def handle_move (cities : List String) (u : Nat) (text : String) (st : BotState) :
    BotState × List Eff :=
  match alookup st.player_game u with
  | none => (st, [])
  | some gid =>
    match alookup st.games gid with
    | none => (st, [])
    | some g =>
      if g.turn ≠ u then (st, [.send u .notYourTurn])
      else
        let city := normalize_city text
        if city = "" then (st, [.send u .invalidWord])
        else if city ∉ cities then (st, [.send u .unknownCity])
        else if city ∈ g.used_cities then (st, [.send u .alreadyUsed])
        else
          let opp := otherOf g.players u
          let accept : BotState × List Eff :=
            ({ st with games := ainsert st.games gid (acceptUpdate u text g) },
             [.send u (.accepted city), .send opp (.yourTurn (last_significant_letter city))])
          match g.last_letter with
          | none => accept
          | some needed =>
            if city.data.head? ≠ some needed then (st, [.send u (.wrongLetter needed)])
            else accept

/-- Python set equality between an offer set and set(key). -/
def setEq (a b : List Nat) : Bool :=
  a.all (fun x => decide (x ∈ b)) && b.all (fun x => decide (x ∈ a))

/-- callback_rematch from bot.py, for the button rematch:p1:p2 pressed
by user u.  A press toggles the consent of u; when the offer set equals
the pair, the entry is dropped and, unless a player is busy, a new game
starts with p1 (the first component of the button, the players list
head of the finished game) moving first. -/
def callback_rematch (p1 p2 u : Nat) (st : BotState) : BotState × List Eff :=
  let key := pair_key p1 p2
  let offers := (alookup st.rematch_offers key).getD []
  let other := if p2 = u then p1 else p2
  if u ∈ offers then
    let offers2 := offers.erase u
    let st1 : BotState :=
      { st with rematch_offers :=
          if offers2 = [] then aerase st.rematch_offers key
          else ainsert st.rematch_offers key offers2 }
    (st1, [.send u .rematchWithdrawAck, .send other .rematchWithdrawn])
  else
    let offers2 := u :: offers
    let st1 : BotState := { st with rematch_offers := ainsert st.rematch_offers key offers2 }
    let base : List Eff := [.send u .rematchConsentAck, .send other .rematchAgreed]
    if setEq offers2 [key.1, key.2] then
      let st2 : BotState := { st1 with rematch_offers := aerase st1.rematch_offers key }
      if is_user_in_game st2 p1 || is_user_in_game st2 p2 then
        (st2, base ++ [.send p1 .rematchBusy, .send p2 .rematchBusy])
      else
        let r := create_game_between p1 p2 (some p1) st2
        (r.1, base ++ r.2)
    else (st1, base)

/-- One interleaving step of the event loop: a command, a text message,
a callback press, or the natural expiry of a turn_timeout task.  A
rematch press requires that the bot has sent the pressed button
(st.buttons records callback data of sent keyboards) and that the
presser is one of the two private chats it was sent to.  A timeout
expiry carries no guard: the handler itself re-checks session and
mover, which is exactly what claims about stale timers are about. -/
inductive Step (cities : List String) : BotState → BotState → Prop
  | play (u : Nat) (st : BotState) : Step cities st (cmd_play u st).1
  | leave (u : Nat) (st : BotState) : Step cities st (cmd_leave u st).1
  | surrender (u : Nat) (st : BotState) : Step cities st (cmd_surrender u st).1
  | cancelRematch (u : Nat) (st : BotState) : Step cities st (cmd_cancel_rematch u st).1
  | move (u : Nat) (text : String) (st : BotState) :
      Step cities st (handle_move cities u text st).1
  | timeout (gid : Nat × Nat) (uid : Nat) (st : BotState) :
      Step cities st (turn_timeout_fire gid uid st).1
  | rematch (p1 p2 u : Nat) (st : BotState) (hb : (p1, p2) ∈ st.buttons)
      (hu : u = p1 ∨ u = p2) : Step cities st (callback_rematch p1 p2 u st).1

def Reachable (cities : List String) (st : BotState) : Prop :=
  Relation.ReflTransGen (Step cities) initState st

/-- A small concrete dictionary for witnesses. -/
def demoCities : List String :=
  [normalize_city "Москва", normalize_city "Анапа", normalize_city "Астрахань"]

/-- A reachable state in which player 1 sits in two sessions at once:
players 1 and 3 finish a game, player 1 queues, the pair accepts a
rematch through the still-valid buttons (the queue slot is not
cleared), and then player 2 queues and is matched with the still-queued
player 1. -/
def badState : BotState :=
  (cmd_play 2
    (callback_rematch 1 3 1
      (callback_rematch 1 3 3
        (cmd_play 1
          (cmd_surrender 1
            (cmd_play 3
              (cmd_play 1 initState).1).1).1).1).1).1).1

example :
    (badState.games.filter
      (fun e => decide (e.2.players.1 = 1) || decide (e.2.players.2 = 1))).length = 2 := by
  decide

example : badState.waiting_player = none := by decide

example : alookup badState.player_game 1 = some (1, 2) := by decide

example : alookup badState.player_game 3 = some (1, 3) := by decide

/-! Structural invariants of reachable states. -/

/-- Well-formedness of one registered game: the turn belongs to the
pair, the pair is proper, the registry key is the canonical pair of the
players, and a game without moves still has its first mover to move. -/
def GameWF (k : Nat × Nat) (g : Game) : Prop :=
  (g.turn = g.players.1 ∨ g.turn = g.players.2) ∧
  g.players.1 ≠ g.players.2 ∧
  k = make_game_id g.players.1 g.players.2 ∧
  (g.moves = 0 → g.turn = g.players.1)

def InvG (games : List ((Nat × Nat) × Game)) : Prop :=
  (∀ k g, (k, g) ∈ games → GameWF k g) ∧ (games.map Prod.fst).Nodup

def InvB (buttons : List (Nat × Nat)) : Prop :=
  ∀ p q, (p, q) ∈ buttons → p ≠ q

def Inv (st : BotState) : Prop :=
  InvG st.games ∧ InvB st.buttons

theorem invG_ainsert {games : List ((Nat × Nat) × Game)} {k : Nat × Nat} {g : Game}
    (h : InvG games) (hwf : GameWF k g) : InvG (ainsert games k g) := by
  constructor
  · intro k' g' hm
    rcases mem_ainsert hm with ⟨hk, hg⟩ | ⟨hm', _⟩
    · subst hk; subst hg; exact hwf
    · exact h.1 _ _ hm'
  · exact keys_ainsert_nodup h.2 k g

theorem invG_aerase {games : List ((Nat × Nat) × Game)} (h : InvG games) (k : Nat × Nat) :
    InvG (aerase games k) := by
  constructor
  · intro k' g' hm
    exact h.1 _ _ (mem_aerase hm).1
  · exact keys_aerase_nodup h.2 k

theorem gameWF_of_alookup {st : BotState} {gid : Nat × Nat} {g : Game}
    (h : Inv st) (hg : alookup st.games gid = some g) : GameWF gid g :=
  h.1.1 _ _ (mem_of_alookup_eq_some hg)

theorem otherOf_mem (players : Nat × Nat) (u : Nat) :
    otherOf players u = players.1 ∨ otherOf players u = players.2 := by
  unfold otherOf
  by_cases h : players.2 = u <;> simp [h]

theorem otherOf_ne {players : Nat × Nat} {u : Nat}
    (hne : players.1 ≠ players.2) (hu : u = players.1 ∨ u = players.2) :
    otherOf players u ≠ u := by
  unfold otherOf
  rcases hu with h | h
  · subst h
    have h2 : players.2 ≠ players.1 := fun hc => hne hc.symm
    rw [if_neg h2]
    exact h2
  · subst h
    rw [if_pos rfl]
    exact hne

theorem start_turn_inv {st : BotState} (h : Inv st) (gid : Nat × Nat) :
    Inv (start_turn gid st).1 := by
  unfold start_turn
  cases hg : alookup st.games gid with
  | none => exact h
  | some g =>
    refine ⟨invG_ainsert h.1 ?_, h.2⟩
    have hwf := gameWF_of_alookup h hg
    exact ⟨hwf.1, hwf.2.1, hwf.2.2.1, hwf.2.2.2⟩

theorem create_inv {st : BotState} {p1 p2 : Nat} (h : Inv st) (hne : p1 ≠ p2) :
    Inv (create_game_between p1 p2 (some p1) st).1 := by
  unfold create_game_between
  dsimp only
  split
  · exact h
  · apply start_turn_inv
    refine ⟨invG_ainsert h.1 ?_, h.2⟩
    exact ⟨Or.inl rfl, hne, rfl, fun _ => rfl⟩

theorem end_game_inv {st : BotState} (h : Inv st) (gid : Nat × Nat) (w : Option Nat) :
    Inv (end_game gid w st).1 := by
  unfold end_game
  cases hg : alookup st.games gid with
  | none => exact h
  | some g =>
    have hwf := gameWF_of_alookup h hg
    refine ⟨invG_aerase h.1 gid, ?_⟩
    intro p q hm
    rcases List.mem_append.mp hm with hm' | hm'
    · exact h.2 _ _ hm'
    · have : (p, q) = (g.players.1, g.players.2) := by simpa using hm'
      cases this
      exact hwf.2.1

theorem timeout_inv {st : BotState} (h : Inv st) (gid : Nat × Nat) (uid : Nat) :
    Inv (turn_timeout_fire gid uid st).1 := by
  unfold turn_timeout_fire
  split
  · exact h
  · split
    · exact end_game_inv h _ _
    · exact h

/-- The result state of handle_move: either unchanged, or the accept
update of the addressed game. -/
theorem handle_move_shape (cities : List String) (u : Nat) (text : String) (st : BotState) :
    (handle_move cities u text st).1 = st ∨
    ∃ gid g, alookup st.player_game u = some gid ∧ alookup st.games gid = some g ∧
      g.turn = u ∧
      (handle_move cities u text st).1 =
        { st with games := ainsert st.games gid (acceptUpdate u text g) } := by
  cases hpg : alookup st.player_game u with
  | none => left; simp [handle_move, hpg]
  | some gid =>
    cases hg : alookup st.games gid with
    | none => left; simp [handle_move, hpg, hg]
    | some g =>
      by_cases ht : g.turn ≠ u
      · left; simp [handle_move, hpg, hg, ht]
      · by_cases he : normalize_city text = ""
        · left; simp [handle_move, hpg, hg, ht, he]
        · by_cases hc : normalize_city text ∈ cities
          · by_cases hused : normalize_city text ∈ g.used_cities
            · left; simp [handle_move, hpg, hg, ht, he, hc, hused]
            · cases hll : g.last_letter with
              | none =>
                refine Or.inr ⟨gid, g, rfl, hg, not_not.mp ht, ?_⟩
                simp [handle_move, hpg, hg, ht, he, hc, hused, hll]
              | some needed =>
                by_cases hhd : (normalize_city text).data.head? ≠ some needed
                · left; simp [handle_move, hpg, hg, ht, he, hc, hused, hll, hhd]
                · refine Or.inr ⟨gid, g, rfl, hg, not_not.mp ht, ?_⟩
                  simp [handle_move, hpg, hg, ht, he, hc, hused, hll, hhd]
          · left; simp [handle_move, hpg, hg, ht, he, hc]

theorem handle_move_inv {cities : List String} {st : BotState} (h : Inv st)
    (u : Nat) (text : String) : Inv (handle_move cities u text st).1 := by
  rcases handle_move_shape cities u text st with heq | ⟨gid, g, hpg, hg, ht, heq⟩
  · rw [heq]; exact h
  · rw [heq]
    have hwf := gameWF_of_alookup h hg
    refine ⟨invG_ainsert h.1 ?_, h.2⟩
    refine ⟨?_, hwf.2.1, hwf.2.2.1, ?_⟩
    · exact otherOf_mem g.players u
    · intro hmv
      exact absurd hmv (Nat.succ_ne_zero _)

theorem surrender_inv {st : BotState} (h : Inv st) (u : Nat) :
    Inv (cmd_surrender u st).1 := by
  unfold cmd_surrender
  split
  · exact h
  · split
    · exact h
    · exact end_game_inv h _ _

theorem play_inv {st : BotState} (h : Inv st) (u : Nat) : Inv (cmd_play u st).1 := by
  unfold cmd_play
  split
  · exact h
  · split
    · exact h
    · split
      · exact h
      next w _ hwu => exact create_inv h hwu

theorem leave_inv {st : BotState} (h : Inv st) (u : Nat) : Inv (cmd_leave u st).1 := by
  unfold cmd_leave
  split <;> exact h

theorem cancel_inv {st : BotState} (h : Inv st) (u : Nat) :
    Inv (cmd_cancel_rematch u st).1 := by
  unfold cmd_cancel_rematch
  dsimp only
  split <;> exact h

theorem rematch_inv {st : BotState} {p1 p2 : Nat} (h : Inv st) (hne : p1 ≠ p2) (u : Nat) :
    Inv (callback_rematch p1 p2 u st).1 := by
  unfold callback_rematch
  dsimp only
  split
  · exact h
  · split
    · split
      · exact h
      · exact create_inv h hne
    · exact h

theorem inv_init : Inv initState := by
  refine ⟨⟨?_, ?_⟩, ?_⟩ <;> simp [initState, InvB]

theorem step_inv {cities : List String} {st st' : BotState}
    (h : Inv st) (hs : Step cities st st') : Inv st' := by
  cases hs with
  | play u => exact play_inv h u
  | leave u => exact leave_inv h u
  | surrender u => exact surrender_inv h u
  | cancelRematch u => exact cancel_inv h u
  | move u text => exact handle_move_inv h u text
  | timeout gid uid => exact timeout_inv h gid uid
  | rematch p1 p2 u stx hbtn huser => exact rematch_inv h (h.2 _ _ hbtn) u

theorem reachable_inv {cities : List String} {st : BotState}
    (h : Reachable cities st) : Inv st := by
  induction h with
  | refl => exact inv_init
  | tail _ hstep ih => exact step_inv ih hstep

/-! Concrete reachable states used by witnesses and counterexamples. -/

/-- Player 1 queued. -/
def Sq : BotState := (cmd_play 1 initState).1

/-- A game between players 1 and 2 (player 1 to move), empty queue. -/
def Sg : BotState := (cmd_play 2 Sq).1

theorem reach_Sg : Reachable demoCities Sg :=
  Relation.ReflTransGen.tail
    (Relation.ReflTransGen.single (Step.play 1 initState))
    (Step.play 2 Sq)

/-- Intermediate states of the double-session trace. -/
def B1 : BotState := (cmd_play 1 initState).1

def B2 : BotState := (cmd_play 3 B1).1

def B3 : BotState := (cmd_surrender 1 B2).1

def B4 : BotState := (cmd_play 1 B3).1

def B5 : BotState := (callback_rematch 1 3 3 B4).1

def B6 : BotState := (callback_rematch 1 3 1 B5).1

theorem reach_badState : Reachable demoCities badState := by
  have h1 : Step demoCities initState B1 := Step.play 1 initState
  have h2 : Step demoCities B1 B2 := Step.play 3 B1
  have h3 : Step demoCities B2 B3 := Step.surrender 1 B2
  have h4 : Step demoCities B3 B4 := Step.play 1 B3
  have h5 : Step demoCities B4 B5 := Step.rematch 1 3 3 B4 (by decide) (Or.inr rfl)
  have h6 : Step demoCities B5 B6 := Step.rematch 1 3 1 B5 (by decide) (Or.inl rfl)
  have h7 : Step demoCities B6 badState := Step.play 2 B6
  exact Relation.ReflTransGen.tail
    (Relation.ReflTransGen.tail
      (Relation.ReflTransGen.tail
        (Relation.ReflTransGen.tail
          (Relation.ReflTransGen.tail
            (Relation.ReflTransGen.tail
              (Relation.ReflTransGen.single h1) h2) h3) h4) h5) h6) h7

/-! Helper lemmas about last_significant_letter. -/

theorem lastSigAux_eq_findSome (l : List Char) :
    lastSigAux l = l.findSome? (fun c =>
      if isAlphaRu c ∧ yoToE c ∉ SKIP_LAST then some (yoToE c) else none) := by
  induction l with
  | nil => rfl
  | cons c rest ih =>
    by_cases ha : isAlphaRu c = true
    · by_cases hskip : yoToE c ∈ SKIP_LAST
      · simp [lastSigAux, List.findSome?, ha, hskip, ih]
      · simp [lastSigAux, List.findSome?, ha, hskip]
    · simp [lastSigAux, List.findSome?, ha, ih]

theorem lastSigAux_none_of_skip (l : List Char)
    (h : ∀ c ∈ l, yoToE c ∈ SKIP_LAST) : lastSigAux l = none := by
  induction l with
  | nil => rfl
  | cons c rest ih =>
    have hc : yoToE c ∈ SKIP_LAST := h c (List.mem_cons_self _ _)
    by_cases ha : isAlphaRu c = true
    · simp [lastSigAux, ha, hc, ih fun d hd => h d (List.mem_cons_of_mem _ hd)]
    · simp [lastSigAux, ha, ih fun d hd => h d (List.mem_cons_of_mem _ hd)]

theorem isAlphaRu_yoToE {c : Char} (h : isAlphaRu c = true) :
    isAlphaRu (yoToE c) = true := by
  by_cases hyo : c = 'ё'
  · subst hyo; decide
  · simpa [yoToE, hyo] using h

theorem yoToE_ne_yo (c : Char) : yoToE c ≠ 'ё' := by
  by_cases hyo : c = 'ё'
  · subst hyo; decide
  · simp [yoToE, hyo]

theorem lastSigAux_sound {l : List Char} {c : Char} (h : lastSigAux l = some c) :
    isAlphaRu c = true ∧ c ∉ SKIP_LAST ∧ c ≠ 'ё' := by
  induction l with
  | nil => cases h
  | cons a rest ih =>
    by_cases ha : isAlphaRu a = true
    · by_cases hskip : yoToE a ∈ SKIP_LAST
      · exact ih (by simpa [lastSigAux, ha, hskip] using h)
      · have hc : yoToE a = c := by simpa [lastSigAux, ha, hskip] using h
        subst hc
        exact ⟨isAlphaRu_yoToE ha, hskip, yoToE_ne_yo a⟩
    · exact ih (by simpa [lastSigAux, ha] using h)

/-- Claim C5: last_significant_letter scans the normalized word from
the end, skipping non-alphabetic characters and letters of the fixed
non-terminal set, and returns the first remaining alphabetic character
with the variant mapping applied; a word ending in a skip letter yields
the nearest preceding eligible letter, and the empty string or an
all-skip word yields none. -/
theorem c5_effective_last_letter :
    (∀ w, last_significant_letter w = effectiveLastLetterSpec w) ∧
    last_significant_letter "Учалы" = some 'л' ∧
    last_significant_letter "" = none ∧
    (∀ w, (∀ c ∈ (normalize_city w).data, yoToE c ∈ SKIP_LAST) →
      last_significant_letter w = none) := by
  refine ⟨fun w => lastSigAux_eq_findSome _, by decide, by decide, fun w h => ?_⟩
  exact lastSigAux_none_of_skip _ fun c hc => h c (List.mem_reverse.mp hc)

theorem c5_effective_last_letter_witness : last_significant_letter "ьый" = none :=
  c5_effective_last_letter.2.2.2 "ьый" (by decide)

/-- Claim C10: a produced required letter is always alphabetic, not a
skip letter, and never the variant letter ё, hence a letter some word
can start with. -/
theorem c10_last_letter_startable (w : String) (c : Char)
    (h : last_significant_letter w = some c) :
    isAlphaRu c = true ∧ c ∉ SKIP_LAST ∧ c ≠ 'ё' :=
  lastSigAux_sound h

theorem c10_last_letter_startable_witness :
    isAlphaRu 'а' = true ∧ 'а' ∉ SKIP_LAST ∧ 'а' ≠ 'ё' :=
  c10_last_letter_startable "Москва" 'а' (by decide)

/-- Claim C9: record_win adds one win, extends the current streak by
one and raises the best streak exactly when the new current streak
exceeds the stored best; reset_streak zeroes the current streak and
leaves wins and the best streak unchanged. -/
theorem c9_record_win_reset_streak (db : List (Nat × PlayerRow)) (uid : Nat)
    (r : PlayerRow) (h : alookup db uid = some r) :
    alookup (record_win db uid) uid = some
      { r with wins := r.wins + 1,
               current_streak := r.current_streak + 1,
               max_streak :=
                 if r.current_streak + 1 > r.max_streak then r.current_streak + 1
                 else r.max_streak } ∧
    alookup (reset_streak db uid) uid = some { r with current_streak := 0 } := by
  constructor
  · unfold record_win
    rw [h]
    by_cases hgt : r.current_streak + 1 > r.max_streak
    · simp [alookup_ainsert_self, hgt]
    · simp [alookup_ainsert_self, hgt]
  · unfold reset_streak
    rw [h]
    simp [alookup_ainsert_self]

theorem c9_record_win_reset_streak_witness :
    alookup (record_win [(7, defaultRow)] 7) 7 = some
      { defaultRow with wins := 1, current_streak := 1, max_streak := 1 } ∧
    alookup (reset_streak [(7, defaultRow)] 7) 7 = some defaultRow := by
  have h := c9_record_win_reset_streak [(7, defaultRow)] 7 defaultRow (by decide)
  exact ⟨by rw [h.1]; decide, by rw [h.2]; decide⟩

/-- Claim C2: the move handler validates in the order NotYourTurn,
InvalidWord, UnknownCity, AlreadyUsed, WrongLetter, and an accepted
move records the word, bumps the move counter, stores the new required
letter and last move, cancels the pending clock and schedules one
watching the opponent (timer := some opponent), and flips the turn. -/
theorem c2_handle_move_validation (cities : List String) (st : BotState) (u : Nat)
    (text : String) (gid : Nat × Nat) (g : Game)
    (hpg : alookup st.player_game u = some gid)
    (hg : alookup st.games gid = some g) :
    (g.turn ≠ u → handle_move cities u text st = (st, [.send u .notYourTurn])) ∧
    (g.turn = u → normalize_city text = "" →
      handle_move cities u text st = (st, [.send u .invalidWord])) ∧
    (g.turn = u → normalize_city text ≠ "" → normalize_city text ∉ cities →
      handle_move cities u text st = (st, [.send u .unknownCity])) ∧
    (g.turn = u → normalize_city text ≠ "" → normalize_city text ∈ cities →
      normalize_city text ∈ g.used_cities →
      handle_move cities u text st = (st, [.send u .alreadyUsed])) ∧
    (∀ needed, g.turn = u → normalize_city text ≠ "" → normalize_city text ∈ cities →
      normalize_city text ∉ g.used_cities → g.last_letter = some needed →
      (normalize_city text).data.head? ≠ some needed →
      handle_move cities u text st = (st, [.send u (.wrongLetter needed)])) ∧
    (g.turn = u → normalize_city text ≠ "" → normalize_city text ∈ cities →
      normalize_city text ∉ g.used_cities →
      (∀ needed, g.last_letter = some needed →
        (normalize_city text).data.head? = some needed) →
      handle_move cities u text st =
        ({ st with games := ainsert st.games gid (acceptUpdate u text g) },
         [.send u (.accepted (normalize_city text)),
          .send (otherOf g.players u)
            (.yourTurn (last_significant_letter (normalize_city text)))])) := by
  refine ⟨?_, ?_, ?_, ?_, ?_, ?_⟩
  · intro ht
    simp [handle_move, hpg, hg, ht]
  · intro ht he
    simp [handle_move, hpg, hg, ht, he]
  · intro ht he hc
    simp [handle_move, hpg, hg, ht, he, hc]
  · intro ht he hc hused
    simp [handle_move, hpg, hg, ht, he, hc, hused]
  · intro needed ht he hc hused hll hhd
    simp [handle_move, hpg, hg, ht, he, hc, hused, hll, hhd]
  · intro ht he hc hused hok
    cases hll : g.last_letter with
    | none => simp [handle_move, hpg, hg, ht, he, hc, hused, hll]
    | some needed => simp [handle_move, hpg, hg, ht, he, hc, hused, hll, hok needed hll]

theorem c2_handle_move_validation_witness :
    handle_move demoCities 1 "Москва" Sg =
      ({ Sg with games := (ainsert Sg.games (1, 2) (acceptUpdate 1 "Москва" { players := (1, 2), turn := 1, last_letter := none, used_cities := [], timer := some 1, moves := 0, last_move := none })) },
       [.send 1 (.accepted (normalize_city "Москва")),
        .send 2 (.yourTurn (last_significant_letter (normalize_city "Москва")))]) :=
  (c2_handle_move_validation demoCities Sg 1 "Москва" (1, 2)
    { players := (1, 2), turn := 1, last_letter := none, used_cities := [],
      timer := some 1, moves := 0, last_move := none }
    (by decide) (by decide)).2.2.2.2.2
    (by decide) (by decide) (by decide) (by decide)
    (fun needed h => Option.noConfusion h)

/-- Claim C4: whenever the move handler emits one of the five
validation rejections, the whole state, the addressed session, its
turn, used words, last letter, last move, move count and pending clock
included, is exactly as before, and the only produced effect is the
single reply to the submitting player. -/
theorem c4_rejection_state_unchanged (cities : List String) (st : BotState) (u : Nat)
    (text : String) (m : Msg)
    (hout : (handle_move cities u text st).2 = [Eff.send u m])
    (hrej : m = .notYourTurn ∨ m = .invalidWord ∨ m = .unknownCity ∨ m = .alreadyUsed ∨
      (∃ L, m = .wrongLetter L)) :
    (handle_move cities u text st).1 = st := by
  cases hpg : alookup st.player_game u with
  | none => simp [handle_move, hpg] at hout
  | some gid =>
    cases hg : alookup st.games gid with
    | none => simp [handle_move, hpg, hg] at hout
    | some g =>
      by_cases ht : g.turn ≠ u
      · simp [handle_move, hpg, hg, ht]
      · by_cases he : normalize_city text = ""
        · simp [handle_move, hpg, hg, ht, he]
        · by_cases hc : normalize_city text ∈ cities
          · by_cases hused : normalize_city text ∈ g.used_cities
            · simp [handle_move, hpg, hg, ht, he, hc, hused]
            · cases hll : g.last_letter with
              | none => simp [handle_move, hpg, hg, ht, he, hc, hused, hll] at hout
              | some needed =>
                by_cases hhd : (normalize_city text).data.head? ≠ some needed
                · simp [handle_move, hpg, hg, ht, he, hc, hused, hll, hhd]
                · simp [handle_move, hpg, hg, ht, he, hc, hused, hll, hhd] at hout
          · simp [handle_move, hpg, hg, ht, he, hc]

theorem c4_rejection_state_unchanged_witness :
    (handle_move demoCities 2 "Москва" Sg).1 = Sg :=
  c4_rejection_state_unchanged demoCities Sg 2 "Москва" .notYourTurn
    (by decide) (Or.inl rfl)

/-- When the acknowledgment of an accepted move is among the emitted
effects, the move handler really took the accept branch: the submitter
was the turn player and the state is the accept update. -/
theorem handle_move_accept_shape (cities : List String) (u : Nat) (text : String)
    (st : BotState) {x : String}
    (hmem : Eff.send u (Msg.accepted x) ∈ (handle_move cities u text st).2) :
    ∃ gid g, alookup st.player_game u = some gid ∧ alookup st.games gid = some g ∧
      g.turn = u ∧
      (handle_move cities u text st).1 =
        { st with games := ainsert st.games gid (acceptUpdate u text g) } := by
  cases hpg : alookup st.player_game u with
  | none => simp [handle_move, hpg] at hmem
  | some gid =>
    cases hg : alookup st.games gid with
    | none => simp [handle_move, hpg, hg] at hmem
    | some g =>
      by_cases ht : g.turn ≠ u
      · simp [handle_move, hpg, hg, ht] at hmem
      · by_cases he : normalize_city text = ""
        · simp [handle_move, hpg, hg, ht, he] at hmem
        · by_cases hc : normalize_city text ∈ cities
          · by_cases hused : normalize_city text ∈ g.used_cities
            · simp [handle_move, hpg, hg, ht, he, hc, hused] at hmem
            · cases hll : g.last_letter with
              | none =>
                refine ⟨gid, g, rfl, hg, not_not.mp ht, ?_⟩
                simp [handle_move, hpg, hg, ht, he, hc, hused, hll]
              | some needed =>
                by_cases hhd : (normalize_city text).data.head? ≠ some needed
                · simp [handle_move, hpg, hg, ht, he, hc, hused, hll, hhd] at hmem
                · refine ⟨gid, g, rfl, hg, not_not.mp ht, ?_⟩
                  simp [handle_move, hpg, hg, ht, he, hc, hused, hll, hhd]
          · simp [handle_move, hpg, hg, ht, he, hc] at hmem

/-- Claim C3: a timeout expiry is effective only when the session still
exists and the watched player is still the one to move; otherwise it is
a no-op; and after an accepted move the stale expiry for the mover is a
no-op on the new state, so a move acceptance and a timeout forfeit
never both take effect for one pending turn. -/
theorem c3_move_xor_timeout (cities : List String) (st : BotState) (gid : Nat × Nat)
    (uid : Nat) :
    (alookup st.games gid = none → turn_timeout_fire gid uid st = (st, [])) ∧
    (∀ g, alookup st.games gid = some g → g.turn ≠ uid →
      turn_timeout_fire gid uid st = (st, [])) ∧
    (∀ g, alookup st.games gid = some g → g.turn = uid →
      turn_timeout_fire gid uid st = end_game gid (some (otherOf g.players uid)) st) ∧
    (∀ text g x, alookup st.player_game uid = some gid → alookup st.games gid = some g →
      g.players.1 ≠ g.players.2 → (uid = g.players.1 ∨ uid = g.players.2) →
      Eff.send uid (Msg.accepted x) ∈ (handle_move cities uid text st).2 →
      turn_timeout_fire gid uid (handle_move cities uid text st).1 =
        ((handle_move cities uid text st).1, [])) := by
  refine ⟨?_, ?_, ?_, ?_⟩
  · intro hnone
    simp [turn_timeout_fire, hnone]
  · intro g hgm hturn
    simp [turn_timeout_fire, hgm, hturn]
  · intro g hgm hturn
    simp [turn_timeout_fire, hgm, hturn]
  · intro text g x hpg hgm hne hu hmem
    obtain ⟨gid2, g2, hpg2, hg2, ht2, heq⟩ := handle_move_accept_shape cities uid text st hmem
    rw [hpg] at hpg2
    injection hpg2 with hgid
    subst hgid
    rw [hgm] at hg2
    injection hg2 with hgg
    subst hgg
    rw [heq]
    have hturn : (acceptUpdate uid text g).turn ≠ uid := by
      show otherOf g.players uid ≠ uid
      exact otherOf_ne hne hu
    simp [turn_timeout_fire, alookup_ainsert_self, hturn]

theorem c3_move_xor_timeout_witness :
    turn_timeout_fire (1, 2) 1 (handle_move demoCities 1 "Москва" Sg).1 =
      ((handle_move demoCities 1 "Москва" Sg).1, []) :=
  (c3_move_xor_timeout demoCities Sg (1, 2) 1).2.2.2 "Москва"
    { players := (1, 2), turn := 1, last_letter := none, used_cities := [],
      timer := some 1, moves := 0, last_move := none }
    (normalize_city "Москва")
    (by decide) (by decide) (by decide) (Or.inl rfl) (by decide)

/-- A fresh pair creation: registers the new game with the first mover
to move, the turn clock watching them, and touches neither the queue
nor the buttons. -/
theorem create_game_fresh (st : BotState) (p1 p2 : Nat)
    (hnew : alookup st.games (make_game_id p1 p2) = none) :
    alookup (create_game_between p1 p2 (some p1) st).1.games (make_game_id p1 p2) =
      some { players := (p1, p2), turn := p1, last_letter := none, used_cities := [],
             timer := some p1, moves := 0, last_move := none } ∧
    (create_game_between p1 p2 (some p1) st).1.waiting_player = st.waiting_player ∧
    (create_game_between p1 p2 (some p1) st).1.buttons = st.buttons := by
  unfold create_game_between start_turn
  simp [hnew, alookup_ainsert_self]

/-- Session creation never touches the rematch offer table. -/
theorem create_offers_unchanged (st : BotState) (p1 p2 : Nat) (fp : Option Nat) :
    (create_game_between p1 p2 fp st).1.rematch_offers = st.rematch_offers := by
  unfold create_game_between start_turn
  dsimp only
  split
  · rfl
  · split
    · rfl
    · rfl

/-- Claim C6 counterexample: in the reachable state Sg nobody waits in
the queue, yet a /play request from player 1 (who has a running
session) does not enqueue them: the state is unchanged and the reply is
the already-in-game notice, not the queued notice. -/
theorem c6_play_counterexample :
    Reachable demoCities Sg ∧ Sg.waiting_player = none ∧
    cmd_play 1 Sg = (Sg, [Eff.upsert 1, Eff.send 1 Msg.alreadyInGame]) :=
  ⟨reach_Sg, by decide, by decide⟩

/-- Claim C6 (amended): provided the requester has no active session,
/play queues them when nobody waits, is an informational no-op when
they already wait, and otherwise clears the slot and creates the
session with the formerly waiting player moving first; a requester who
has an active session is refused with a reply and nothing changes. -/
theorem c6_matchmaking (st : BotState) (u : Nat) :
    (alookup st.player_game u ≠ none →
      cmd_play u st = (st, [.upsert u, .send u .alreadyInGame])) ∧
    (alookup st.player_game u = none → st.waiting_player = none →
      cmd_play u st =
        ({ st with waiting_player := some u }, [.upsert u, .send u .queued])) ∧
    (alookup st.player_game u = none → st.waiting_player = some u →
      cmd_play u st = (st, [.upsert u, .send u .alreadyQueued])) ∧
    (∀ w, alookup st.player_game u = none → st.waiting_player = some w → w ≠ u →
      (cmd_play u st).1 =
        (create_game_between w u (some w) { st with waiting_player := none }).1 ∧
      (alookup st.games (make_game_id w u) = none →
        alookup (cmd_play u st).1.games (make_game_id w u) = some
          { players := (w, u), turn := w, last_letter := none, used_cities := [],
            timer := some w, moves := 0, last_move := none } ∧
        (cmd_play u st).1.waiting_player = none)) := by
  refine ⟨?_, ?_, ?_, ?_⟩
  · intro hin
    simp [cmd_play, is_user_in_game, hin]
  · intro hfree hw
    simp [cmd_play, is_user_in_game, hfree, hw]
  · intro hfree hw
    simp [cmd_play, is_user_in_game, hfree, hw]
  · intro w hfree hw hwu
    have h1 : (cmd_play u st).1 =
        (create_game_between w u (some w) { st with waiting_player := none }).1 := by
      simp [cmd_play, is_user_in_game, hfree, hw, hwu]
    refine ⟨h1, fun hnew => ?_⟩
    rw [h1]
    have hfr := create_game_fresh { st with waiting_player := none } w u hnew
    exact ⟨hfr.1, hfr.2.1⟩

theorem c6_matchmaking_witness :
    cmd_play 5 initState =
      ({ initState with waiting_player := some 5 },
       [Eff.upsert 5, Eff.send 5 Msg.queued]) :=
  (c6_matchmaking initState 5).2.1 (by decide) rfl

/-- Claim C7: a fresh consent only records the player while one side
has consented; a repeated consent withdraws it (so a later lone consent
of the other player finds a below-full set and creates nothing); when
the set reaches the pair, the entry is dropped and either both are
notified without a session (some player busy) or a session is created
in which p1, the players list head and hence (by the last conjunct, the
first mover convention of every reachable game with no moves yet) the
first mover of the prior game, moves first again. -/
theorem c7_rematch_negotiation (st : BotState) (p1 p2 u : Nat) :
    (u ∈ (alookup st.rematch_offers (pair_key p1 p2)).getD [] →
      (callback_rematch p1 p2 u st).1.games = st.games ∧
      (alookup (callback_rematch p1 p2 u st).1.rematch_offers (pair_key p1 p2)).getD [] =
        ((alookup st.rematch_offers (pair_key p1 p2)).getD []).erase u) ∧
    (u ∉ (alookup st.rematch_offers (pair_key p1 p2)).getD [] →
      setEq (u :: (alookup st.rematch_offers (pair_key p1 p2)).getD [])
        [(pair_key p1 p2).1, (pair_key p1 p2).2] = false →
      (callback_rematch p1 p2 u st).1.games = st.games ∧
      alookup (callback_rematch p1 p2 u st).1.rematch_offers (pair_key p1 p2) =
        some (u :: (alookup st.rematch_offers (pair_key p1 p2)).getD [])) ∧
    (u ∉ (alookup st.rematch_offers (pair_key p1 p2)).getD [] →
      setEq (u :: (alookup st.rematch_offers (pair_key p1 p2)).getD [])
        [(pair_key p1 p2).1, (pair_key p1 p2).2] = true →
      alookup (callback_rematch p1 p2 u st).1.rematch_offers (pair_key p1 p2) = none ∧
      ((is_user_in_game st p1 || is_user_in_game st p2) = true →
        (callback_rematch p1 p2 u st).1.games = st.games ∧
        (callback_rematch p1 p2 u st).2 =
          [.send u .rematchConsentAck, .send (if p2 = u then p1 else p2) .rematchAgreed,
           .send p1 .rematchBusy, .send p2 .rematchBusy]) ∧
      ((is_user_in_game st p1 || is_user_in_game st p2) = false →
        alookup st.games (make_game_id p1 p2) = none →
        alookup (callback_rematch p1 p2 u st).1.games (make_game_id p1 p2) = some
          { players := (p1, p2), turn := p1, last_letter := none, used_cities := [],
            timer := some p1, moves := 0, last_move := none })) ∧
    (∀ cities st2, Reachable cities st2 → ∀ k g, (k, g) ∈ st2.games → g.moves = 0 →
      g.turn = g.players.1) := by
  refine ⟨?_, ?_, ?_, ?_⟩
  · intro hu
    by_cases hempty : ((alookup st.rematch_offers (pair_key p1 p2)).getD []).erase u = []
    · simp [callback_rematch, hu, hempty, alookup_aerase_self]
    · simp [callback_rematch, hu, hempty, alookup_ainsert_self]
  · intro hu hfull
    simp [callback_rematch, hu, hfull, alookup_ainsert_self]
  · intro hu hfull
    refine ⟨?_, ?_, ?_⟩
    · unfold callback_rematch
      dsimp only
      rw [if_neg hu, if_pos hfull]
      split
      · exact alookup_aerase_self _ _
      · rw [create_offers_unchanged]
        exact alookup_aerase_self _ _
    · intro hbusy
      unfold callback_rematch
      dsimp only
      rw [if_neg hu, if_pos hfull]
      split
      · exact ⟨rfl, rfl⟩
      next hfree => exact absurd hbusy hfree
    · intro hbusy hnew
      unfold callback_rematch
      dsimp only
      rw [if_neg hu, if_pos hfull]
      split
      next hb =>
        have hb2 : (is_user_in_game st p1 || is_user_in_game st p2) = true := hb
        rw [hbusy] at hb2
        cases hb2
      · exact (create_game_fresh
          { st with rematch_offers := (aerase (ainsert st.rematch_offers (pair_key p1 p2) (u :: (alookup st.rematch_offers (pair_key p1 p2)).getD [])) (pair_key p1 p2)) }
          p1 p2 hnew).1
  · intro cities st2 hreach k g hm hmv
    exact ((reachable_inv hreach).1.1 _ _ hm).2.2.2 hmv

theorem c7_rematch_negotiation_witness :
    (callback_rematch 1 3 3 B4).1.games = B4.games ∧
    alookup (callback_rematch 1 3 3 B4).1.rematch_offers (pair_key 1 3) = some [3] :=
  (c7_rematch_negotiation B4 1 3 3).2.1 (by decide) (by decide)

/-- Claim C8: in every reachable state the turn of every registered
session is one of its two players, and an accepted move always moves
the turn from the accepting mover to the other player. -/
theorem c8_turn_alternation (cities : List String) (st : BotState)
    (h : Reachable cities st) :
    (∀ k g, (k, g) ∈ st.games → g.turn = g.players.1 ∨ g.turn = g.players.2) ∧
    (∀ u text gid g x, alookup st.player_game u = some gid →
      alookup st.games gid = some g →
      Eff.send u (Msg.accepted x) ∈ (handle_move cities u text st).2 →
      g.turn = u ∧
      ∃ g2, alookup (handle_move cities u text st).1.games gid = some g2 ∧
        g2.turn ≠ u ∧
        g2.turn = (if g.players.2 = u then g.players.1 else g.players.2)) := by
  have hinv := reachable_inv h
  constructor
  · intro k g hm
    exact (hinv.1.1 _ _ hm).1
  · intro u text gid g x hpg hg hmem
    obtain ⟨gid2, g2, hpg2, hg2, ht2, heq⟩ := handle_move_accept_shape cities u text st hmem
    rw [hpg] at hpg2
    injection hpg2 with hgid
    subst hgid
    rw [hg] at hg2
    injection hg2 with hgg
    subst hgg
    have hwf := gameWF_of_alookup hinv hg
    have hu : u = g.players.1 ∨ u = g.players.2 := ht2 ▸ hwf.1
    refine ⟨ht2, acceptUpdate u text g, ?_, otherOf_ne hwf.2.1 hu, rfl⟩
    rw [heq]
    exact alookup_ainsert_self _ _ _

theorem c8_turn_alternation_witness : (1 : Nat) = 1 ∨ (1 : Nat) = 2 :=
  (c8_turn_alternation demoCities Sg reach_Sg).1 (1, 2)
    { players := (1, 2), turn := 1, last_letter := none, used_cities := [],
      timer := some 1, moves := 0, last_move := none }
    (by decide)

/-- Claim C1 counterexample: the state badState is reachable and player
1 occurs in the players lists of two registered sessions at once, while
their reverse index names only the newer one; the creation that caused
this did not fail. -/
theorem c1_counterexample :
    Reachable demoCities badState ∧
    (badState.games.filter
      (fun e => decide (e.2.players.1 = 1) || decide (e.2.players.2 = 1))).length = 2 ∧
    alookup badState.player_game 1 = some (1, 2) :=
  ⟨reach_badState, by decide, by decide⟩

/-- Claim C1 (amended): in every reachable state each unordered player
pair has at most one session, and the rematch path never creates a
session while either player is busy; but creation itself performs no
AlreadyInSession check, and a queued player who meanwhile entered a
session through a rematch is matched again, ending up in the players
lists of two sessions. -/
theorem c1_session_uniqueness (cities : List String) (st : BotState)
    (h : Reachable cities st) :
    (∀ k g k2 g2, (k, g) ∈ st.games → (k2, g2) ∈ st.games →
      make_game_id g.players.1 g.players.2 = make_game_id g2.players.1 g2.players.2 →
      k = k2 ∧ g = g2) ∧
    (∀ st3 p1 p2 u, (is_user_in_game st3 p1 || is_user_in_game st3 p2) = true →
      (callback_rematch p1 p2 u st3).1.games = st3.games) := by
  have hinv := reachable_inv h
  constructor
  · intro k g k2 g2 hm hm2 hpp
    have hk : k = make_game_id g.players.1 g.players.2 := (hinv.1.1 _ _ hm).2.2.1
    have hk2 : k2 = make_game_id g2.players.1 g2.players.2 := (hinv.1.1 _ _ hm2).2.2.1
    have hkk : k = k2 := by rw [hk, hk2, hpp]
    subst hkk
    have h1 := alookup_eq_some_of_mem hinv.1.2 hm
    have h2 := alookup_eq_some_of_mem hinv.1.2 hm2
    rw [h1] at h2
    injection h2 with hgg
    exact ⟨rfl, hgg⟩
  · intro st3 p1 p2 u hbusy
    unfold callback_rematch
    dsimp only
    split
    · rfl
    · split
      · split
        · rfl
        next hfree => exact absurd hbusy hfree
      · rfl

theorem c1_session_uniqueness_witness :
    (callback_rematch 1 3 1 Sg).1.games = Sg.games :=
  (c1_session_uniqueness demoCities Sg reach_Sg).2 Sg 1 3 1 (by decide)

end CityBot
